import Mathlib

/-!
Verification development for the `myconfig` Go package (`src/myconfig.go`):
a two-tier encrypted configuration store.  Application settings live in an
encrypted JSON document (the ConfigFile); the password that decrypts that
document is itself stored encrypted in a KeyFile, protected by a password
injected at build time (`keyFilePassword`).

The Go code is shallowly embedded below.  External collaborators are
modelled through the interfaces the core uses:

* `vimcrypto.Encrypt/Decrypt` (a separate library, out of scope per the
  spec) is modelled as tagging ciphertext with the passphrase it was
  encrypted under; decryption succeeds exactly when the same passphrase is
  supplied, which is the interface the spec assumes (wrong passphrase or
  corrupted ciphertext fail).
* Go's `encoding/json` is modelled symbolically: a byte payload is either
  `Bytes.json v` (text that is a valid JSON serialization of the value
  `v`) or `Bytes.text s` (opaque text that is not a valid JSON document,
  e.g. a stored password or a malformed config).  Unmarshalling into
  `map[string]interface{}` follows Go's documented semantics: a top-level
  object yields its fields (numbers decoded as `float64`), a top-level
  JSON `null` sets the map to nil (modelled as the empty mapping) with no
  error, and any other top-level value is a type error.  Go's `nil` map
  and the freshly allocated empty map are both modelled as `[]`.
* `log.Fatal`/`log.Fatalf` terminate the process; accessors therefore run
  in the `Outcome` type whose `fatalExit` constructor marks process
  termination (no value is ever returned to the caller on that path).
* Transient I/O failures (`os.Create`, `os.Open`, `os.Stat`, and the
  stream-writing side of `Encrypt`) are injected through an `Env` record,
  one flag per call site, with `false` meaning the operation succeeds.

Go `float64` values are modelled as exact rationals (`Rat`); the claims
under study involve only exactly representable numbers.  `fmt.Errorf`
wrapping only changes message text, so errors are modelled as a flat
inductive with one constructor per distinct failure site.
-/

namespace Myconfig

/-- Dynamically typed Go values (`interface{}`) as they occur in
`configData`: values decoded from JSON (`float64`, `string`, `bool`,
`nil`, `map[string]interface{}`, `[]interface{}`), plus Go `int` (which
callers can insert through `SetConfig`) and a marker for values that
`encoding/json` cannot serialize (channels, functions, ...). -/
inductive GoValue where
  | goInt (n : Int)
  | goFloat (q : Rat)
  | goStr (s : String)
  | goBool (b : Bool)
  | goNull
  | goArr (elems : List GoValue)
  | goObj (fields : List (String × GoValue))
  | goUnsup (tag : String)

/-- The `%T` type name printed by the accessors' `log.Fatalf` calls. -/
def typeName : GoValue → String
  | .goInt _ => "int"
  | .goFloat _ => "float64"
  | .goStr _ => "string"
  | .goBool _ => "bool"
  | .goNull => "nil"
  | .goArr _ => "array"
  | .goObj _ => "map"
  | .goUnsup t => t

/-- Go's `int(v)` conversion on a `float64`: truncation toward zero. -/
def goTrunc (q : Rat) : Int := q.num.tdiv q.den

mutual
/-- Marshal-then-unmarshal normalization of `encoding/json`: serializing a
value and decoding it back into `interface{}` turns every number into
`float64` (Go JSON has no integer type) and leaves the other shapes
unchanged.  `goUnsup` never survives marshalling, so its clause is
unreachable on the paths the store exercises. -/
def jnorm : GoValue → GoValue
  | .goInt n => .goFloat (n : Rat)
  | .goFloat q => .goFloat q
  | .goStr s => .goStr s
  | .goBool b => .goBool b
  | .goNull => .goNull
  | .goArr xs => .goArr (jnormList xs)
  | .goObj m => .goObj (jnormObj m)
  | .goUnsup t => .goUnsup t
def jnormList : List GoValue → List GoValue
  | [] => []
  | v :: tl => jnorm v :: jnormList tl
def jnormObj : List (String × GoValue) → List (String × GoValue)
  | [] => []
  | (k, v) :: tl => (k, jnorm v) :: jnormObj tl
end

mutual
/-- Whether a value contains a part `encoding/json` refuses to marshal. -/
def hasUnsup : GoValue → Bool
  | .goInt _ => false
  | .goFloat _ => false
  | .goStr _ => false
  | .goBool _ => false
  | .goNull => false
  | .goArr xs => hasUnsupList xs
  | .goObj m => hasUnsupObj m
  | .goUnsup _ => true
def hasUnsupList : List GoValue → Bool
  | [] => false
  | v :: tl => hasUnsup v || hasUnsupList tl
def hasUnsupObj : List (String × GoValue) → Bool
  | [] => false
  | (_, v) :: tl => hasUnsup v || hasUnsupObj tl
end

/-- Decrypted byte payloads.  `json v` is text that is a valid JSON
serialization of `v` (e.g. `json.MarshalIndent` output); `text s` is
opaque text that is not a valid JSON document (a stored password, or a
malformed configuration). -/
inductive Bytes where
  | text (s : String)
  | json (v : GoValue)

mutual
/-- A plain JSON printer, only used to recover the textual form of
`Bytes.json` payloads when one is read as a string (the exact formatting
is irrelevant to every operation modelled here). -/
def serializeJson : GoValue → String
  | .goInt n => toString n
  | .goFloat q => toString q
  | .goStr s => "\x22" ++ s ++ "\x22"
  | .goBool b => if b then "true" else "false"
  | .goNull => "null"
  | .goArr xs => "[" ++ serializeJsonList xs ++ "]"
  | .goObj m => "\x7b" ++ serializeJsonObj m ++ "\x7d"
  | .goUnsup t => t
def serializeJsonList : List GoValue → String
  | [] => ""
  | v :: tl => serializeJson v ++ "," ++ serializeJsonList tl
def serializeJsonObj : List (String × GoValue) → String
  | [] => ""
  | (k, v) :: tl => "\x22" ++ k ++ "\x22:" ++ serializeJson v ++ "," ++ serializeJsonObj tl
end

/-- The string a byte payload reads as. -/
def Bytes.asString : Bytes → String
  | .text s => s
  | .json v => serializeJson v

/-- Model of `json.Unmarshal(data, &m)` for `m : map[string]interface{}`, following
Go's documented semantics: a top-level object succeeds with its decoded
fields, a top-level `null` succeeds by setting the map to nil (modelled as
the empty mapping), every other top-level value is an error.  `Bytes.text`
payloads model text that is not a valid JSON document. -/
def jsonUnmarshalObj : Bytes → Option (List (String × GoValue))
  | .json (.goObj m) => some (jnormObj m)
  | .json .goNull => some []
  | .json _ => none
  | .text _ => none

/-- Model of `json.MarshalIndent` on the configuration map: fails exactly when the
map holds a value `encoding/json` cannot serialize. -/
def jsonMarshalObj (m : List (String × GoValue)) : Option Bytes :=
  if hasUnsupObj m then none else some (.json (.goObj m))

/-- On-disk content of one file: either a complete `vimcrypto` ciphertext
(tagged with the passphrase it was produced under), or the truncated /
partially written state left behind by `os.Create` when the subsequent
encrypted write failed. -/
inductive FileData where
  | blob (pass : String) (data : Bytes)
  | empty

/-- Model of `vimcrypto.Encrypt`: produce ciphertext under `pass`. -/
def vimEncrypt (pass : String) (data : Bytes) : FileData := .blob pass data

/-- Model of `vimcrypto.Decrypt`: succeeds exactly when the supplied passphrase is
the one the blob was encrypted under; a truncated file or a wrong
passphrase is a decryption failure (the interface the spec assumes of the
external cipher). -/
def vimDecrypt : FileData → String → Option Bytes
  | .blob p b, pass => if p = pass then some b else none
  | .empty, _ => none

/-- ASCII whitespace test used by the model of `strings.TrimSpace`. -/
def isWsChar (c : Char) : Bool :=
  c = ' ' || c = '\t' || c = '\n' || c = '\r'

def dropLeadingWs : List Char → List Char
  | [] => []
  | c :: tl => if isWsChar c then dropLeadingWs tl else c :: tl

/-- Model of `strings.TrimSpace`: strip leading and trailing whitespace. -/
def trimSpace (s : String) : String :=
  ⟨(dropLeadingWs (dropLeadingWs s.data).reverse).reverse⟩

/-- The filesystem: newest write first, lookup returns the newest entry
for a path. -/
abbrev FS := List (String × FileData)

def fsLookup : FS → String → Option FileData
  | [], _ => none
  | (q, d) :: tl, p => if q = p then some d else fsLookup tl p

/-- A write (`os.Create` + stream write) shadows any earlier content. -/
def fsInsert (fs : FS) (p : String) (d : FileData) : FS := (p, d) :: fs

/-- Lookup in the configuration map (Go map read). -/
def mapLookup : List (String × GoValue) → String → Option GoValue
  | [], _ => none
  | (q, v) :: tl, k => if q = k then some v else mapLookup tl k

/-- Go's `delete` on the configuration map. -/
def mapErase : List (String × GoValue) → String → List (String × GoValue)
  | [], _ => []
  | (q, v) :: tl, k => if q = k then mapErase tl k else (q, v) :: mapErase tl k

/-- Go map assignment `m[k] = v` (keys stay unique). -/
def mapInsert (m : List (String × GoValue)) (k : String) (v : GoValue) :
    List (String × GoValue) :=
  (k, v) :: mapErase m k

/-- One constructor per distinct failure site of the Go code
(`fmt.Errorf` wrapping only changes message text and is dropped). -/
inductive GoErr where
  | missingBuildSecret
  | notInitialized
  | readPasswordFailed
  | keyFileStatFailed
  | keyFileCreateFailed
  | keyFileEncryptFailed
  | keyFileOpenFailed
  | keyFileDecryptFailed
  | configStatFailed
  | configMarshalFailed
  | configCreateFailed
  | configEncryptFailed
  | configOpenFailed
  | configDecryptFailed
  | configParseFailed
deriving DecidableEq

/-- What an accessor's `log.Fatalf` reports before terminating. -/
inductive FatalKind where
  | notInitialized
  | keyNotFound (key : String)
  | typeMismatch (key expected actual : String)
deriving DecidableEq

/-- Result of a Go function with no error return: either a value handed
back to the caller, or `log.Fatal` — the process terminates and control
never returns to the caller. -/
inductive Outcome (α : Type) where
  | ok (a : α)
  | fatalExit (k : FatalKind)

/-- Holds (`true`) iff the call ended in `log.Fatal` (process termination), i.e.
nothing was returned or reported to the immediate caller. -/
def Outcome.terminatesProcess {α : Type} : Outcome α → Bool
  | .ok _ => false
  | .fatalExit _ => true

/-- Transient-failure injection, one flag per I/O call site (`false`
means the call succeeds); `stdinLine` is the line offered at the
interactive prompt (`none` models a read error). -/
structure Env where
  stdinLine : Option String
  statKeyErr : Bool
  openKeyErr : Bool
  createKeyErr : Bool
  encKeyErr : Bool
  statCfgErr : Bool
  openCfgErr : Bool
  createCfgErr : Bool
  encCfgErr : Bool

/-- The environment in which every I/O call succeeds. -/
def okEnv : Env := ⟨none, false, false, false, false, false, false, false, false⟩

/-- The `Config` struct of `myconfig.go`. -/
structure Config where
  configPath : String
  decryptPwd : String
  configData : List (String × GoValue)
  keyFilePath : String

/-- Process-level state: the build-time injected `keyFilePassword`, the
filesystem, and the package-level `globalConfig` pointer. -/
structure World where
  keyFilePassword : String
  files : FS
  globalConfig : Option Config

/-- A fresh process over the same disk and the same build-time secret:
`globalConfig` starts out nil. -/
def restartWorld (w : World) : World := { w with globalConfig := none }

def defaultKeyFile : String := "myconfigkey.json"

/-- Go `readPasswordFromStdin`: read one line, trim whitespace. -/
def readPasswordFromStdin (env : Env) : Except GoErr String :=
  match env.stdinLine with
  | none => .error .readPasswordFailed
  | some s => .ok (trimSpace s)

/-- Go `(c *Config) createKeyFile`: re-check the build secret, create the
key file, encrypt `c.decryptPwd` under the build secret into it.  A
failed encrypted write leaves the file truncated by `os.Create`. -/
def createKeyFile (env : Env) (w : World) (c : Config) : Except GoErr Unit × World :=
  if w.keyFilePassword = "" then (.error .missingBuildSecret, w)
  else if env.createKeyErr then (.error .keyFileCreateFailed, w)
  else
    let f1 := fsInsert w.files c.keyFilePath .empty
    if env.encKeyErr then (.error .keyFileEncryptFailed, { w with files := f1 })
    else
      let f2 := fsInsert f1 c.keyFilePath (vimEncrypt w.keyFilePassword (.text c.decryptPwd))
      (.ok (), { w with files := f2 })

/-- Go `(c *Config) readKeyFromFile`: open the key file, decrypt with the
build secret, trim whitespace. -/
def readKeyFromFile (env : Env) (w : World) (c : Config) : Except GoErr String :=
  if w.keyFilePassword = "" then .error .missingBuildSecret
  else if env.openKeyErr then .error .keyFileOpenFailed
  else
    match fsLookup w.files c.keyFilePath with
    | none => .error .keyFileOpenFailed
    | some d =>
      match vimDecrypt d w.keyFilePassword with
      | none => .error .keyFileDecryptFailed
      | some b => .ok (trimSpace b.asString)

/-- Go `(c *Config) ensureConfigFile`: if the config file is absent, create
it holding an encrypted empty JSON object. -/
def ensureConfigFile (env : Env) (w : World) (c : Config) : Except GoErr Unit × World :=
  if env.statCfgErr then (.error .configStatFailed, w)
  else
    match fsLookup w.files c.configPath with
    | some _ => (.ok (), w)
    | none =>
      if env.createCfgErr then (.error .configCreateFailed, w)
      else
        let f1 := fsInsert w.files c.configPath .empty
        if env.encCfgErr then (.error .configEncryptFailed, { w with files := f1 })
        else
          let f2 := fsInsert f1 c.configPath (vimEncrypt c.decryptPwd (.json (.goObj [])))
          (.ok (), { w with files := f2 })

/-- Go `(c *Config) loadConfig`: open, decrypt with `c.decryptPwd`, then
`c.configData = make(map[string]interface{})` followed by
`json.Unmarshal`.  The struct is mutated in place, so the function
returns the updated `Config` alongside the error: on a decryption
failure `configData` is untouched, but on a parse failure it has already
been replaced by the fresh empty map. -/
def loadConfig (env : Env) (files : FS) (c : Config) : Except GoErr Unit × Config :=
  if env.openCfgErr then (.error .configOpenFailed, c)
  else
    match fsLookup files c.configPath with
    | none => (.error .configOpenFailed, c)
    | some d =>
      match vimDecrypt d c.decryptPwd with
      | none => (.error .configDecryptFailed, c)
      | some b =>
        let c1 := { c with configData := [] }
        match jsonUnmarshalObj b with
        | none => (.error .configParseFailed, c1)
        | some m => (.ok (), { c1 with configData := m })

/-- Go `(c *Config) saveConfig`: marshal `configData`, create the config
file, encrypt under `c.decryptPwd`.  A failed encrypted write leaves the
file truncated by `os.Create`. -/
def saveConfig (env : Env) (files : FS) (c : Config) : Except GoErr Unit × FS :=
  match jsonMarshalObj c.configData with
  | none => (.error .configMarshalFailed, files)
  | some b =>
    if env.createCfgErr then (.error .configCreateFailed, files)
    else
      let f1 := fsInsert files c.configPath .empty
      if env.encCfgErr then (.error .configEncryptFailed, f1)
      else (.ok (), fsInsert f1 c.configPath (vimEncrypt c.decryptPwd b))

/-- Go `SetPass`: requires initialization and the build secret; re-encrypt
the new password into the key file (overwriting it), then update the
in-memory password and re-run `loadConfig` — the config file itself is
never rewritten here. -/
def SetPass (env : Env) (w : World) (newPassword : String) : Except GoErr Unit × World :=
  match w.globalConfig with
  | none => (.error .notInitialized, w)
  | some cfg =>
    if w.keyFilePassword = "" then (.error .missingBuildSecret, w)
    else if env.createKeyErr then (.error .keyFileCreateFailed, w)
    else
      let f1 := fsInsert w.files cfg.keyFilePath .empty
      if env.encKeyErr then (.error .keyFileEncryptFailed, { w with files := f1 })
      else
        let f2 := fsInsert f1 cfg.keyFilePath
          (vimEncrypt w.keyFilePassword (.text newPassword))
        let cfg1 := { cfg with decryptPwd := newPassword }
        let r := loadConfig env f2 cfg1
        (r.1, { w with files := f2, globalConfig := some r.2 })

/-- Go `Get`: nil `globalConfig` or a missing key hit `log.Fatal`. -/
def Get (w : World) (key : String) : Outcome GoValue :=
  match w.globalConfig with
  | none => .fatalExit .notInitialized
  | some cfg =>
    match mapLookup cfg.configData key with
    | none => .fatalExit (.keyNotFound key)
    | some v => .ok v

/-- Go `GetString`: type-assert to `string`. -/
def GetString (w : World) (key : String) : Outcome String :=
  match Get w key with
  | .fatalExit k => .fatalExit k
  | .ok v =>
    match v with
    | .goStr s => .ok s
    | _ => .fatalExit (.typeMismatch key "string" (typeName v))

/-- Go `GetInt`: accept `int` directly and truncate a `float64`. -/
def GetInt (w : World) (key : String) : Outcome Int :=
  match Get w key with
  | .fatalExit k => .fatalExit k
  | .ok v =>
    match v with
    | .goInt n => .ok n
    | .goFloat q => .ok (goTrunc q)
    | _ => .fatalExit (.typeMismatch key "int" (typeName v))

/-- Go `GetBool`: type-assert to `bool`. -/
def GetBool (w : World) (key : String) : Outcome Bool :=
  match Get w key with
  | .fatalExit k => .fatalExit k
  | .ok v =>
    match v with
    | .goBool b => .ok b
    | _ => .fatalExit (.typeMismatch key "bool" (typeName v))

/-- Go `GetMap`: type-assert to `map[string]interface{}`. -/
def GetMap (w : World) (key : String) : Outcome (List (String × GoValue)) :=
  match Get w key with
  | .fatalExit k => .fatalExit k
  | .ok v =>
    match v with
    | .goObj m => .ok m
    | _ => .fatalExit (.typeMismatch key "map" (typeName v))

/-- Go `GetArray`: type-assert to `[]interface{}`. -/
def GetArray (w : World) (key : String) : Outcome (List GoValue) :=
  match Get w key with
  | .fatalExit k => .fatalExit k
  | .ok v =>
    match v with
    | .goArr xs => .ok xs
    | _ => .fatalExit (.typeMismatch key "array" (typeName v))

/-- Go `GetConfigData`: the raw mapping (by reference in Go). -/
def GetConfigData (w : World) : Outcome (List (String × GoValue)) :=
  match w.globalConfig with
  | none => .fatalExit .notInitialized
  | some cfg => .ok cfg.configData

/-- Go `SetConfig`: mutate the in-memory map first, then save. -/
def SetConfig (env : Env) (w : World) (key : String) (value : GoValue) :
    Except GoErr Unit × World :=
  match w.globalConfig with
  | none => (.error .notInitialized, w)
  | some cfg =>
    let cfg1 := { cfg with configData := mapInsert cfg.configData key value }
    let r := saveConfig env w.files cfg1
    (r.1, { w with globalConfig := some cfg1, files := r.2 })

/-- Go `DelConfig`: delete from the in-memory map first, then save. -/
def DelConfig (env : Env) (w : World) (key : String) : Except GoErr Unit × World :=
  match w.globalConfig with
  | none => (.error .notInitialized, w)
  | some cfg =>
    let cfg1 := { cfg with configData := mapErase cfg.configData key }
    let r := saveConfig env w.files cfg1
    (r.1, { w with globalConfig := some cfg1, files := r.2 })

/-- The tail of `Init` after the configuration passphrase is known:
ensure the config file exists, load it, and only on full success publish
the store as `globalConfig`. -/
def initAfterKey (env : Env) (w : World) (c : Config) : Except GoErr Unit × World :=
  match ensureConfigFile env w c with
  | (.error e, w1) => (.error e, w1)
  | (.ok _, w1) =>
    let r := loadConfig env w1.files c
    match r.1 with
    | .error e => (.error e, w1)
    | .ok _ => (.ok (), { w1 with globalConfig := some r.2 })

/-- Go `Init`: build the struct, check the build secret before any
filesystem access, then either prompt and create the key file (when it
is absent) or decrypt it, ensure the config file, and load. -/
def Init (env : Env) (w : World) (configPath keyFilePath : String) :
    Except GoErr Unit × World :=
  let cfg0 : Config :=
    { configPath := configPath
      decryptPwd := ""
      configData := []
      keyFilePath := if keyFilePath = "" then defaultKeyFile else keyFilePath }
  if w.keyFilePassword = "" then (.error .missingBuildSecret, w)
  else if env.statKeyErr then (.error .keyFileStatFailed, w)
  else
    match fsLookup w.files cfg0.keyFilePath with
    | none =>
      match readPasswordFromStdin env with
      | .error e => (.error e, w)
      | .ok pwd =>
        let cfg1 := { cfg0 with decryptPwd := pwd }
        match createKeyFile env w cfg1 with
        | (.error e, w1) => (.error e, w1)
        | (.ok _, w1) => initAfterKey env w1 cfg1
    | some _ =>
      match readKeyFromFile env w cfg0 with
      | .error e => (.error e, w)
      | .ok pwd => initAfterKey env w { cfg0 with decryptPwd := pwd }

/-! ### Demonstration stores used by witnesses and counterexamples -/

/-- A world whose build-time secret was never injected. -/
def wNoSecret : World := { keyFilePassword := "", files := [], globalConfig := none }

/-- A store seeded with one string entry, used to observe `loadConfig`
failure modes. -/
def cfgSeeded : Config :=
  { configPath := "config.json"
    decryptPwd := "pw"
    configData := [("A", .goStr "a")]
    keyFilePath := "key.json" }

/-- A config file encrypted under a different passphrase. -/
def fsWrongPass : FS := [("config.json", .blob "other" (.json (.goObj [])))]

/-- A config file whose plaintext is not a valid JSON document. -/
def fsBadJson : FS := [("config.json", .blob "pw" (.text "not json"))]

/-- A config file whose plaintext is the JSON document `null`. -/
def fsNullDoc : FS := [("config.json", .blob "pw" (.json .goNull))]

/-- An initialized in-memory store holding `X ↦ "y"`. -/
def cfgXY : Config :=
  { configPath := "config.json"
    decryptPwd := "pw"
    configData := [("X", .goStr "y")]
    keyFilePath := "key.json" }

def wXY : World := { keyFilePassword := "bp", files := [], globalConfig := some cfgXY }

/-- An initialized store holding float-valued entries. -/
def cfgFloats : Config :=
  { configPath := "config.json"
    decryptPwd := "pw"
    configData := [("PORT", .goFloat 8080), ("FRAC", .goFloat (mkRat 37 10))]
    keyFilePath := "key.json" }

def wFloats : World := { keyFilePassword := "bp", files := [], globalConfig := some cfgFloats }

/-! ### C6 -/

/-- Top-level JSON values the claim lists apart from `null`: arrays,
strings, numbers, and booleans. -/
def topNonObjectNonNull : GoValue → Bool
  | .goArr _ => true
  | .goStr _ => true
  | .goInt _ => true
  | .goFloat _ => true
  | .goBool _ => true
  | _ => false

/-- An environment in which `os.Create` on the config file fails. -/
def envCreateCfgFail : Env := { okEnv with createCfgErr := true }

/-- An environment in which the encrypted write of the config file fails. -/
def envEncCfgFail : Env := { okEnv with encCfgErr := true }

/-- A store that was never initialized (but with the secret injected). -/
def wUninit : World := { keyFilePassword := "bp", files := [], globalConfig := none }

def envCreateKeyFail : Env := { okEnv with createKeyErr := true }

def envEncKeyFail : Env := { okEnv with encKeyErr := true }

/-- A consistent, initialized store on disk and in memory. -/
def wConsistent : World :=
  { keyFilePassword := "bp"
    files := [("config.json", .blob "pw" (.json (.goObj [("A", .goStr "a")]))),
              ("key.json", .blob "bp" (.text "pw"))]
    globalConfig := some cfgSeeded }

/-- A store about to rotate: the ConfigFile on disk is already encrypted
under the password being rotated to, which is the only situation in
which `SetPass` can succeed (see C3). -/
def cfgC1 : Config :=
  { configPath := "config.json"
    decryptPwd := "pw"
    configData := []
    keyFilePath := "key.json" }

def wC1 : World :=
  { keyFilePassword := "bp"
    files := [("config.json", .blob "newpass" (.json (.goObj [("K", .goStr "v")])))]
    globalConfig := some cfgC1 }

/-- A fully consistent initialized store with an empty mapping. -/
def cfgW5 : Config :=
  { configPath := "config.json"
    decryptPwd := "pw"
    configData := []
    keyFilePath := "key.json" }

def wW5 : World :=
  { keyFilePassword := "bp"
    files := [("key.json", .blob "bp" (.text "pw")),
              ("config.json", .blob "pw" (.json (.goObj [])))]
    globalConfig := some cfgW5 }

/-! ### Helper lemmas -/

/-- Unfolding of a successful `loadConfig`: the environment allowed the
open, some file content was found, it decrypted under the store's
passphrase, and the plaintext unmarshalled as a JSON object whose fields
replaced `configData` wholesale. -/
theorem loadConfig_okE (env : Env) (files : FS) (c c' : Config)
    (h : loadConfig env files c = (.ok (), c')) :
    env.openCfgErr = false ∧
    ∃ d b m, fsLookup files c.configPath = some d ∧
      vimDecrypt d c.decryptPwd = some b ∧
      jsonUnmarshalObj b = some m ∧
      c' = { c with configData := m } := by
  unfold loadConfig at h
  split at h
  · exact absurd h (by simp)
  · rename_i henv
    refine ⟨by simpa using henv, ?_⟩
    split at h
    · exact absurd h (by simp)
    · rename_i d hd
      split at h
      · exact absurd h (by simp)
      · rename_i b hb
        split at h
        · exact absurd h (by simp)
        · rename_i m hm
          exact ⟨d, b, m, hd, hb, hm, by simpa using (congrArg Prod.snd h).symm⟩

/-- Evaluating `loadConfig` when every step is known to succeed. -/
theorem loadConfig_eval (env : Env) (files : FS) (c : Config) (d : FileData)
    (b : Bytes) (m : List (String × GoValue))
    (henv : env.openCfgErr = false)
    (hf : fsLookup files c.configPath = some d)
    (hd : vimDecrypt d c.decryptPwd = some b)
    (hu : jsonUnmarshalObj b = some m) :
    loadConfig env files c = (.ok (), { c with configData := m }) := by
  simp [loadConfig, henv, hf, hd, hu]

/-- Unfolding of a successful `saveConfig`: the data was marshalable, the
create and the encrypted write both succeeded, and the config file now
holds the map encrypted under the store's passphrase. -/
theorem saveConfig_okE (env : Env) (files : FS) (c : Config) (f' : FS)
    (h : saveConfig env files c = (.ok (), f')) :
    hasUnsupObj c.configData = false ∧
    env.createCfgErr = false ∧ env.encCfgErr = false ∧
    f' = fsInsert (fsInsert files c.configPath .empty) c.configPath
          (vimEncrypt c.decryptPwd (.json (.goObj c.configData))) := by
  unfold saveConfig jsonMarshalObj at h
  cases hU : hasUnsupObj c.configData <;> rw [hU] at h <;> simp at h
  cases hC : env.createCfgErr <;> rw [hC] at h <;> simp at h
  cases hE : env.encCfgErr <;> rw [hE] at h <;> simp at h
  exact ⟨rfl, rfl, rfl, h.symm⟩

/-- Unfolding of a successful `SetPass`: the store was initialized, the
build secret present, the key-file write succeeded in full, and the
result is exactly the re-run of the load pipeline with the new password
over the rewritten key file. -/
theorem SetPass_okE (env : Env) (w : World) (p : String) (w' : World)
    (h : SetPass env w p = (.ok (), w')) :
    ∃ cfg c2, w.globalConfig = some cfg ∧ w.keyFilePassword ≠ "" ∧
      env.createKeyErr = false ∧ env.encKeyErr = false ∧
      loadConfig env
        (fsInsert (fsInsert w.files cfg.keyFilePath .empty) cfg.keyFilePath
          (vimEncrypt w.keyFilePassword (.text p)))
        { cfg with decryptPwd := p } = (.ok (), c2) ∧
      w' = { w with
        files := fsInsert (fsInsert w.files cfg.keyFilePath .empty) cfg.keyFilePath
          (vimEncrypt w.keyFilePassword (.text p)),
        globalConfig := some c2 } := by
  unfold SetPass at h
  split at h
  · exact absurd h (by simp)
  · rename_i cfg hcfg
    split at h
    · exact absurd h (by simp)
    · rename_i hbp
      split at h
      · exact absurd h (by simp)
      · rename_i hck
        split at h
        · exact absurd h (by simp)
        · rename_i hek
          have h1 := congrArg Prod.fst h
          have h2 := congrArg Prod.snd h
          dsimp only at h1 h2
          exact ⟨cfg, _, hcfg, hbp, by simpa using hck, by simpa using hek,
            Prod.ext h1 rfl, h2.symm⟩

/-- Unfolding of a successful `SetConfig`: the store was initialized, the
in-memory map took the insertion, and the save pipeline succeeded on it. -/
theorem SetConfig_okE (env : Env) (w : World) (k : String) (v : GoValue) (w' : World)
    (h : SetConfig env w k v = (.ok (), w')) :
    ∃ cfg f1, w.globalConfig = some cfg ∧
      saveConfig env w.files { cfg with configData := mapInsert cfg.configData k v }
        = (.ok (), f1) ∧
      w' = { w with
        globalConfig := some { cfg with configData := mapInsert cfg.configData k v },
        files := f1 } := by
  unfold SetConfig at h
  split at h
  · exact absurd h (by simp)
  · rename_i cfg hcfg
    have h1 := congrArg Prod.fst h
    have h2 := congrArg Prod.snd h
    dsimp only at h1 h2
    exact ⟨cfg, _, hcfg, Prod.ext h1 rfl, h2.symm⟩

/-! ### C4 -/

/-- C4: if the build-time key-file password is the empty string, `Init`
returns the `MissingBuildSecret` error before performing any filesystem
operation — the world (in particular the filesystem) is returned
completely unchanged, so no KeyFile or ConfigFile is created. -/
theorem C4_empty_build_secret_init (env : Env) (w : World) (configPath keyFilePath : String)
    (h : w.keyFilePassword = "") :
    Init env w configPath keyFilePath = (.error .missingBuildSecret, w) := by
  simp [Init, h]

theorem C4_witness :
    wNoSecret.keyFilePassword = "" ∧
    Init okEnv wNoSecret "config.json" "" = (.error .missingBuildSecret, wNoSecret) :=
  ⟨rfl, C4_empty_build_secret_init okEnv wNoSecret "config.json" "" rfl⟩

/-! ### C8 -/

/-- C8: on an initialized store, `GetInt` on a key holding a `float64`
returns the value truncated toward zero (`int(v)`), whether or not the
float encodes a whole number. -/
theorem C8_getint_truncates_float (w : World) (cfg : Config) (key : String) (q : Rat)
    (hw : w.globalConfig = some cfg)
    (hv : mapLookup cfg.configData key = some (.goFloat q)) :
    GetInt w key = .ok (goTrunc q) := by
  simp [GetInt, Get, hw, hv]

theorem C8_witness :
    GetInt wFloats "PORT" = .ok 8080 ∧ GetInt wFloats "FRAC" = .ok 3 := by
  constructor
  · have h := C8_getint_truncates_float wFloats cfgFloats "PORT" 8080 rfl rfl
    rw [h]
    rfl
  · have h := C8_getint_truncates_float wFloats cfgFloats "FRAC" (mkRat 37 10) rfl rfl
    rw [h]
    rfl

/-! ### C10 -/

/-- C10: `loadConfig` replaces `configData` by a fresh empty map before
parsing, so a parse failure leaves the previously loaded data discarded
(the store's map is the fresh empty one), while a decryption failure —
which happens before the overwrite — leaves the store unchanged. -/
theorem C10_loadconfig_clears_before_parse (env : Env) (files : FS) (c : Config)
    (d : FileData) (b : Bytes)
    (henv : env.openCfgErr = false)
    (hf : fsLookup files c.configPath = some d) :
    (vimDecrypt d c.decryptPwd = none →
      loadConfig env files c = (.error .configDecryptFailed, c)) ∧
    (vimDecrypt d c.decryptPwd = some b → jsonUnmarshalObj b = none →
      loadConfig env files c = (.error .configParseFailed, { c with configData := [] })) := by
  constructor
  · intro hd
    simp [loadConfig, henv, hf, hd]
  · intro hd hu
    simp [loadConfig, henv, hf, hd, hu]

theorem C10_witness :
    loadConfig okEnv fsWrongPass cfgSeeded = (.error .configDecryptFailed, cfgSeeded) ∧
    loadConfig okEnv fsBadJson cfgSeeded
      = (.error .configParseFailed, { cfgSeeded with configData := [] }) := by
  constructor
  · exact (C10_loadconfig_clears_before_parse okEnv fsWrongPass cfgSeeded
      (.blob "other" (.json (.goObj []))) (.text "x") rfl rfl).1 rfl
  · exact (C10_loadconfig_clears_before_parse okEnv fsBadJson cfgSeeded
      (.blob "pw" (.text "not json")) (.text "not json") rfl rfl).2 rfl rfl

/-- C6 counterexample: a ConfigFile whose decrypted plaintext is the
valid JSON document `null` (a non-object top-level value) makes
`loadConfig` succeed — Go's `json.Unmarshal` sets the map to nil without
error — instead of failing with a parse error as claimed. -/
theorem C6_counterexample :
    loadConfig okEnv fsNullDoc cfgSeeded = (.ok (), { cfgSeeded with configData := [] }) ∧
    (loadConfig okEnv fsNullDoc cfgSeeded).1 ≠ .error .configParseFailed := by
  constructor
  · rfl
  · intro h
    simp [loadConfig, okEnv, fsNullDoc, cfgSeeded, fsLookup, vimDecrypt, jsonUnmarshalObj] at h

/-- C6 amended: a ConfigFile whose decrypted plaintext is valid JSON with
a top-level array, string, number, or boolean makes `loadConfig` fail
with the parse error, adopting nothing from the document (`configData`
is the freshly allocated empty map); a top-level `null`, however,
succeeds, leaving `configData` the nil (empty) map — also adopting no
entries. -/
theorem C6_nonobject_parse_failure (env : Env) (files : FS) (c : Config) (v : GoValue)
    (henv : env.openCfgErr = false)
    (hf : fsLookup files c.configPath = some (.blob c.decryptPwd (.json v))) :
    (topNonObjectNonNull v = true →
      loadConfig env files c = (.error .configParseFailed, { c with configData := [] })) ∧
    (v = .goNull →
      loadConfig env files c = (.ok (), { c with configData := [] })) := by
  constructor
  · intro hv
    have hu : jsonUnmarshalObj (.json v) = none := by
      cases v <;> simp_all [jsonUnmarshalObj, topNonObjectNonNull]
    simp [loadConfig, henv, hf, vimDecrypt, hu]
  · rintro rfl
    simp [loadConfig, henv, hf, vimDecrypt, jsonUnmarshalObj]

theorem C6_witness :
    loadConfig okEnv [("config.json", .blob "pw" (.json (.goArr [])))] cfgSeeded
      = (.error .configParseFailed, { cfgSeeded with configData := [] }) ∧
    loadConfig okEnv [("config.json", .blob "pw" (.json (.goStr "s")))] cfgSeeded
      = (.error .configParseFailed, { cfgSeeded with configData := [] }) ∧
    loadConfig okEnv [("config.json", .blob "pw" (.json (.goFloat 1)))] cfgSeeded
      = (.error .configParseFailed, { cfgSeeded with configData := [] }) ∧
    loadConfig okEnv [("config.json", .blob "pw" (.json (.goBool true)))] cfgSeeded
      = (.error .configParseFailed, { cfgSeeded with configData := [] }) := by
  refine ⟨?_, ?_, ?_, ?_⟩
  · exact (C6_nonobject_parse_failure okEnv
      [("config.json", .blob "pw" (.json (.goArr [])))] cfgSeeded (.goArr []) rfl rfl).1 rfl
  · exact (C6_nonobject_parse_failure okEnv
      [("config.json", .blob "pw" (.json (.goStr "s")))] cfgSeeded (.goStr "s") rfl rfl).1 rfl
  · exact (C6_nonobject_parse_failure okEnv
      [("config.json", .blob "pw" (.json (.goFloat 1)))] cfgSeeded (.goFloat 1) rfl rfl).1 rfl
  · exact (C6_nonobject_parse_failure okEnv
      [("config.json", .blob "pw" (.json (.goBool true)))] cfgSeeded (.goBool true) rfl rfl).1 rfl

/-! ### C7 -/

/-- C7 counterexample: on an initialized store, a missing key and a typed
accessor mismatch are not reported to the immediate caller: `Get` and
`GetBool` hit `log.Fatalf`, which terminates the process — the embedding
records this as a `fatalExit` outcome, from which no error value is ever
handed back to the calling code. -/
theorem C7_counterexample :
    Get wXY "MISSING_KEY" = .fatalExit (.keyNotFound "MISSING_KEY") ∧
    (Get wXY "MISSING_KEY").terminatesProcess = true ∧
    GetBool wXY "X" = .fatalExit (.typeMismatch "X" "bool" "string") ∧
    (GetBool wXY "X").terminatesProcess = true :=
  ⟨rfl, rfl, rfl, rfl⟩

/-- C7 amended: on an initialized store, `Get` fails with a key-not-found
`log.Fatalf` when the key is absent and otherwise returns the stored
value unchanged; a typed accessor (`GetBool` on a non-boolean value)
fails with a type-mismatch `log.Fatalf` naming the expected and actual
dynamic types.  These failures terminate the process instead of being
reported to the immediate caller (an uninitialized store likewise
terminates with a not-initialized `log.Fatal`). -/
theorem C7_accessor_failures_fatal (w : World) (key : String) :
    (w.globalConfig = none →
      Get w key = .fatalExit .notInitialized ∧
      (Get w key).terminatesProcess = true) ∧
    (∀ cfg, w.globalConfig = some cfg →
      (mapLookup cfg.configData key = none →
        Get w key = .fatalExit (.keyNotFound key) ∧
        (Get w key).terminatesProcess = true) ∧
      (∀ v, mapLookup cfg.configData key = some v →
        Get w key = .ok v ∧
        ((∀ b, v ≠ .goBool b) →
          GetBool w key = .fatalExit (.typeMismatch key "bool" (typeName v)) ∧
          (GetBool w key).terminatesProcess = true))) := by
  constructor
  · intro hnone
    constructor
    · simp [Get, hnone]
    · simp [Get, hnone, Outcome.terminatesProcess]
  · intro cfg hcfg
    constructor
    · intro habs
      constructor
      · simp [Get, hcfg, habs]
      · simp [Get, hcfg, habs, Outcome.terminatesProcess]
    · intro v hv
      have hget : Get w key = .ok v := by simp [Get, hcfg, hv]
      refine ⟨hget, ?_⟩
      intro hnb
      have hb : GetBool w key = .fatalExit (.typeMismatch key "bool" (typeName v)) := by
        cases v <;> simp [GetBool, hget, typeName]
        exact absurd rfl (hnb _)
      exact ⟨hb, by simp [hb, Outcome.terminatesProcess]⟩

theorem C7_witness :
    (Get wXY "B" = .fatalExit (.keyNotFound "B") ∧
      (Get wXY "B").terminatesProcess = true) ∧
    Get wXY "X" = .ok (.goStr "y") ∧
    GetBool wXY "X" = .fatalExit (.typeMismatch "X" "bool" "string") := by
  have h := C7_accessor_failures_fatal wXY "B"
  have h2 := C7_accessor_failures_fatal wXY "X"
  refine ⟨((h.2 cfgXY rfl).1 rfl), ?_, ?_⟩
  · exact ((h2.2 cfgXY rfl).2 (.goStr "y") rfl).1
  · have := ((h2.2 cfgXY rfl).2 (.goStr "y") rfl).2 (fun b hb => by cases hb)
    exact this.1

/-! ### C9 -/

/-- C9: when the save pipeline fails during `SetConfig` or `DelConfig`
(serialization, file-creation, or encryption failure — all failure modes
of `saveConfig`), the error is returned to the caller as an ordinary
error value — these functions cannot terminate the process — while the
in-memory map keeps the mutation that was applied before the failed
save, and the filesystem is whatever the failed save left behind, so
memory and disk diverge. -/
theorem C9_save_failure_divergence (env : Env) (w : World) (cfg : Config)
    (key : String) (value : GoValue) (e : GoErr)
    (hw : w.globalConfig = some cfg) :
    ((saveConfig env w.files { cfg with configData := mapInsert cfg.configData key value }).1
        = .error e →
      SetConfig env w key value =
        (.error e,
          { w with
            globalConfig := some { cfg with configData := mapInsert cfg.configData key value }
            files := (saveConfig env w.files
              { cfg with configData := mapInsert cfg.configData key value }).2 })) ∧
    ((saveConfig env w.files { cfg with configData := mapErase cfg.configData key }).1
        = .error e →
      DelConfig env w key =
        (.error e,
          { w with
            globalConfig := some { cfg with configData := mapErase cfg.configData key }
            files := (saveConfig env w.files
              { cfg with configData := mapErase cfg.configData key }).2 })) := by
  constructor
  · intro h
    unfold SetConfig
    rw [hw]
    exact Prod.ext h rfl
  · intro h
    unfold DelConfig
    rw [hw]
    exact Prod.ext h rfl

theorem C9_witness :
    SetConfig envCreateCfgFail wXY "PORT" (.goInt 1) =
      (.error .configCreateFailed,
        { wXY with
          globalConfig := some { cfgXY with configData := mapInsert cfgXY.configData "PORT" (.goInt 1) }
          files := (saveConfig envCreateCfgFail wXY.files
            { cfgXY with configData := mapInsert cfgXY.configData "PORT" (.goInt 1) }).2 }) ∧
    DelConfig envEncCfgFail wXY "X" =
      (.error .configEncryptFailed,
        { wXY with
          globalConfig := some { cfgXY with configData := mapErase cfgXY.configData "X" }
          files := (saveConfig envEncCfgFail wXY.files
            { cfgXY with configData := mapErase cfgXY.configData "X" }).2 }) := by
  constructor
  · exact (C9_save_failure_divergence envCreateCfgFail wXY cfgXY "PORT" (.goInt 1)
      .configCreateFailed rfl).1 rfl
  · exact (C9_save_failure_divergence envEncCfgFail wXY cfgXY "X" (.goInt 0)
      .configEncryptFailed rfl).2 rfl

/-! ### C2 -/

/-- C2: `SetPass` before a successful `Init` fails with the
not-initialized error and changes nothing.  On an initialized store, if
the key-file write fails — at file creation or at the encrypted write —
`SetPass` aborts with the in-memory passphrase and map unchanged
(`globalConfig` is returned as it was) and the ConfigFile unchanged
(creation failure touches no file at all; a failed encrypted write only
truncates the KeyFile, and the ConfigFile's content is untouched as long
as the two paths differ).  Only when the key-file write has fully
succeeded is the in-memory passphrase replaced, after which the load
pipeline is re-run: the outcome is exactly that of `loadConfig` with the
new password. -/
theorem C2_setpass_failure_atomicity (env : Env) (w : World) (p : String) :
    (w.globalConfig = none → SetPass env w p = (.error .notInitialized, w)) ∧
    (∀ cfg, w.globalConfig = some cfg → w.keyFilePassword ≠ "" →
      (env.createKeyErr = true → SetPass env w p = (.error .keyFileCreateFailed, w)) ∧
      (env.createKeyErr = false → env.encKeyErr = true →
        SetPass env w p = (.error .keyFileEncryptFailed,
          { w with files := fsInsert w.files cfg.keyFilePath .empty }) ∧
        (cfg.configPath ≠ cfg.keyFilePath →
          fsLookup (fsInsert w.files cfg.keyFilePath .empty) cfg.configPath
            = fsLookup w.files cfg.configPath)) ∧
      (env.createKeyErr = false → env.encKeyErr = false →
        SetPass env w p =
          ((loadConfig env (fsInsert (fsInsert w.files cfg.keyFilePath .empty) cfg.keyFilePath
              (vimEncrypt w.keyFilePassword (.text p))) { cfg with decryptPwd := p }).1,
            { w with
              files := fsInsert (fsInsert w.files cfg.keyFilePath .empty) cfg.keyFilePath
                (vimEncrypt w.keyFilePassword (.text p))
              globalConfig := some (loadConfig env
                (fsInsert (fsInsert w.files cfg.keyFilePath .empty) cfg.keyFilePath
                  (vimEncrypt w.keyFilePassword (.text p)))
                { cfg with decryptPwd := p }).2 }))) := by
  refine ⟨?_, ?_⟩
  · intro hnone
    simp [SetPass, hnone]
  · intro cfg hcfg hbp
    refine ⟨?_, ?_, ?_⟩
    · intro hck
      simp [SetPass, hcfg, hbp, hck]
    · intro hck hek
      refine ⟨by simp [SetPass, hcfg, hbp, hck, hek], ?_⟩
      intro hpaths
      simp [fsInsert, fsLookup, Ne.symm hpaths]
    · intro hck hek
      simp [SetPass, hcfg, hbp, hck, hek]

theorem C2_witness :
    SetPass okEnv wUninit "np" = (.error .notInitialized, wUninit) ∧
    SetPass envCreateKeyFail wXY "np" = (.error .keyFileCreateFailed, wXY) ∧
    (SetPass envEncKeyFail wXY "np" = (.error .keyFileEncryptFailed,
        { wXY with files := fsInsert wXY.files cfgXY.keyFilePath .empty }) ∧
      fsLookup (fsInsert wXY.files cfgXY.keyFilePath .empty) cfgXY.configPath
        = fsLookup wXY.files cfgXY.configPath) ∧
    SetPass okEnv wXY "np" =
      ((loadConfig okEnv (fsInsert (fsInsert wXY.files cfgXY.keyFilePath .empty) cfgXY.keyFilePath
          (vimEncrypt wXY.keyFilePassword (.text "np"))) { cfgXY with decryptPwd := "np" }).1,
        { wXY with
          files := fsInsert (fsInsert wXY.files cfgXY.keyFilePath .empty) cfgXY.keyFilePath
            (vimEncrypt wXY.keyFilePassword (.text "np"))
          globalConfig := some (loadConfig okEnv
            (fsInsert (fsInsert wXY.files cfgXY.keyFilePath .empty) cfgXY.keyFilePath
              (vimEncrypt wXY.keyFilePassword (.text "np")))
            { cfgXY with decryptPwd := "np" }).2 }) := by
  refine ⟨?_, ?_, ⟨?_, ?_⟩, ?_⟩
  · exact (C2_setpass_failure_atomicity okEnv wUninit "np").1 rfl
  · exact ((C2_setpass_failure_atomicity envCreateKeyFail wXY "np").2 cfgXY rfl
      (by decide)).1 rfl
  · exact (((C2_setpass_failure_atomicity envEncKeyFail wXY "np").2 cfgXY rfl
      (by decide)).2.1 rfl rfl).1
  · exact (((C2_setpass_failure_atomicity envEncKeyFail wXY "np").2 cfgXY rfl
      (by decide)).2.1 rfl rfl).2 (by decide)
  · exact ((C2_setpass_failure_atomicity okEnv wXY "np").2 cfgXY rfl
      (by decide)).2.2 rfl rfl

/-! ### C3 -/

/-- C3: on an initialized store whose ConfigFile is encrypted under the
current passphrase, `SetPass` with a passphrase different from the
current one rewrites the KeyFile (it now holds the new passphrase
encrypted under the build secret) and sets the in-memory passphrase to
the new value, but the reload then decrypts the ConfigFile — still
encrypted under the old passphrase — with the new one, so it fails with
the decryption error, which `SetPass` returns; the ConfigFile itself is
never rewritten by `SetPass` (its content on disk is unchanged and the
in-memory `configData` is also untouched, since the failure happens
before the parse step). -/
theorem C3_setpass_new_pass_decrypt_failure (w : World) (cfg : Config) (b : Bytes)
    (newPass : String)
    (hw : w.globalConfig = some cfg)
    (hbp : w.keyFilePassword ≠ "")
    (hpaths : cfg.configPath ≠ cfg.keyFilePath)
    (hfile : fsLookup w.files cfg.configPath = some (.blob cfg.decryptPwd b))
    (hne : newPass ≠ cfg.decryptPwd) :
    SetPass okEnv w newPass =
      (.error .configDecryptFailed,
        { w with
          files := fsInsert (fsInsert w.files cfg.keyFilePath .empty) cfg.keyFilePath
            (vimEncrypt w.keyFilePassword (.text newPass))
          globalConfig := some { cfg with decryptPwd := newPass } }) ∧
    fsLookup (fsInsert (fsInsert w.files cfg.keyFilePath .empty) cfg.keyFilePath
        (vimEncrypt w.keyFilePassword (.text newPass))) cfg.configPath
      = some (.blob cfg.decryptPwd b) ∧
    fsLookup (fsInsert (fsInsert w.files cfg.keyFilePath .empty) cfg.keyFilePath
        (vimEncrypt w.keyFilePassword (.text newPass))) cfg.keyFilePath
      = some (vimEncrypt w.keyFilePassword (.text newPass)) := by
  have hlook : fsLookup (fsInsert (fsInsert w.files cfg.keyFilePath .empty) cfg.keyFilePath
      (vimEncrypt w.keyFilePassword (.text newPass))) cfg.configPath
      = some (.blob cfg.decryptPwd b) := by
    simp [fsInsert, fsLookup, Ne.symm hpaths, hfile]
  refine ⟨?_, hlook, by simp [fsInsert, fsLookup]⟩
  have hload : loadConfig okEnv (fsInsert (fsInsert w.files cfg.keyFilePath .empty)
      cfg.keyFilePath (vimEncrypt w.keyFilePassword (.text newPass)))
      { cfg with decryptPwd := newPass }
      = (.error .configDecryptFailed, { cfg with decryptPwd := newPass }) := by
    simp [loadConfig, okEnv, hlook, vimDecrypt, Ne.symm hne]
  have hck : okEnv.createKeyErr = false := rfl
  have hek : okEnv.encKeyErr = false := rfl
  simp [SetPass, hw, hbp, hck, hek, hload]

theorem C3_witness :
    SetPass okEnv wConsistent "new" =
      (.error .configDecryptFailed,
        { wConsistent with
          files := fsInsert (fsInsert wConsistent.files cfgSeeded.keyFilePath .empty)
            cfgSeeded.keyFilePath (vimEncrypt wConsistent.keyFilePassword (.text "new"))
          globalConfig := some { cfgSeeded with decryptPwd := "new" } }) ∧
    fsLookup (fsInsert (fsInsert wConsistent.files cfgSeeded.keyFilePath .empty)
        cfgSeeded.keyFilePath (vimEncrypt wConsistent.keyFilePassword (.text "new")))
        cfgSeeded.configPath
      = some (.blob cfgSeeded.decryptPwd (.json (.goObj [("A", .goStr "a")]))) ∧
    fsLookup (fsInsert (fsInsert wConsistent.files cfgSeeded.keyFilePath .empty)
        cfgSeeded.keyFilePath (vimEncrypt wConsistent.keyFilePassword (.text "new")))
        cfgSeeded.keyFilePath
      = some (vimEncrypt wConsistent.keyFilePassword (.text "new")) :=
  C3_setpass_new_pass_decrypt_failure wConsistent cfgSeeded
    (.json (.goObj [("A", .goStr "a")])) "new" rfl (by decide) (by decide) rfl (by decide)

/-- Evaluating a restart `Init` in a failure-free environment when the
key file exists and every pipeline step succeeds: the key file decrypts
under the build secret to (whitespace-trimmed) `pwd`, the config file is
present and decrypts under `pwd` to a payload unmarshalling as `m`; then
`Init` succeeds and publishes the store with `configData = m`. -/
theorem Init_keyfile_exists_eval (w : World) (configPath keyFilePath kdata pwd : String)
    (d : FileData) (b : Bytes) (m : List (String × GoValue))
    (hbp : w.keyFilePassword ≠ "")
    (hkfp : keyFilePath ≠ "")
    (hkey : fsLookup w.files keyFilePath = some (.blob w.keyFilePassword (.text kdata)))
    (hpwd : trimSpace kdata = pwd)
    (hcfgfile : fsLookup w.files configPath = some d)
    (hdec : vimDecrypt d pwd = some b)
    (hum : jsonUnmarshalObj b = some m) :
    Init okEnv w configPath keyFilePath =
      (.ok (), { w with globalConfig := some (Config.mk configPath pwd m keyFilePath) }) := by
  have hkfp2 : (if keyFilePath = "" then defaultKeyFile else keyFilePath) = keyFilePath :=
    if_neg hkfp
  have hkeydec : vimDecrypt (.blob w.keyFilePassword (.text kdata)) w.keyFilePassword
      = some (.text kdata) := by simp [vimDecrypt]
  simp [Init, okEnv, hkfp2, hbp, hkey, readKeyFromFile, hkeydec, Bytes.asString, hpwd,
    initAfterKey, ensureConfigFile, hcfgfile, loadConfig, hdec, hum]

/-! ### C1 -/

/-- C1: after a successful `SetPass newPass` on an initialized store, a
fresh process restart — `Init` over the same disk with the same
build-time secret and the same paths, where the rewritten KeyFile now
decrypts to `newPass` — succeeds and loads exactly the configuration the
store held after `SetPass`: the published store (path, passphrase, and
`configData`) coincides with the one `SetPass` left in memory, i.e. the
previously-set configuration values are loaded unchanged.  (`newPass` is
assumed free of surrounding whitespace, as any interactively or
programmatically chosen password here is; the key-file reader trims what
it reads.) -/
theorem C1_setpass_then_restart (env : Env) (w : World) (cfg : Config) (newPass : String)
    (hw : w.globalConfig = some cfg)
    (hkfp : cfg.keyFilePath ≠ "")
    (htrim : trimSpace newPass = newPass)
    (hok : (SetPass env w newPass).1 = .ok ()) :
    (Init okEnv (restartWorld (SetPass env w newPass).2) cfg.configPath cfg.keyFilePath).1
      = .ok () ∧
    (Init okEnv (restartWorld (SetPass env w newPass).2)
        cfg.configPath cfg.keyFilePath).2.globalConfig
      = (SetPass env w newPass).2.globalConfig := by
  have hfull : SetPass env w newPass = (.ok (), (SetPass env w newPass).2) :=
    Prod.ext hok rfl
  obtain ⟨cfg', c2, hcfg', hbp, hck, hek, hload, hw'⟩ := SetPass_okE env w newPass _ hfull
  have hcc : cfg = cfg' := Option.some_injective _ (hw.symm.trans hcfg')
  subst hcc
  obtain ⟨henv, d, b, m, hd, hb, hum, hc2⟩ := loadConfig_okE _ _ _ _ hload
  rw [hw']
  have hInit := Init_keyfile_exists_eval
    (restartWorld (World.mk w.keyFilePassword
      (fsInsert (fsInsert w.files cfg.keyFilePath .empty) cfg.keyFilePath
        (vimEncrypt w.keyFilePassword (.text newPass)))
      (some c2)))
    cfg.configPath cfg.keyFilePath newPass newPass d b m
    hbp hkfp (by simp [restartWorld, fsInsert, fsLookup, vimEncrypt]) htrim hd hb hum
  rw [hInit, hc2]
  exact ⟨rfl, rfl⟩

theorem C1_witness :
    (Init okEnv (restartWorld (SetPass okEnv wC1 "newpass").2) "config.json" "key.json").1
      = .ok () ∧
    (Init okEnv (restartWorld (SetPass okEnv wC1 "newpass").2)
        "config.json" "key.json").2.globalConfig
      = (SetPass okEnv wC1 "newpass").2.globalConfig :=
  C1_setpass_then_restart okEnv wC1 cfgC1 "newpass" rfl (by decide) rfl rfl

/-! ### C5 -/

/-- C5: persistence round-trip.  (a) After a successful
`SetConfig "PORT" 8080` on an initialized store with a consistent
KeyFile, a process restart (re-`Init` over the same disk, paths, and
build secret) succeeds and `GetInt "PORT"` returns `8080` (the value
travels through JSON as a number and returns as a `float64`, which
`GetInt` truncates back to `8080`).  (b) For any store `c` whose
`configData` is a JSON-object mapping (marshalable, and a fixed point of
the JSON decode normalization, i.e. containing only JSON-decoded
values), saving under `c.decryptPwd` and re-loading with the same
passphrase succeeds and yields the very same store. -/
theorem C5_persistence_roundtrip (env : Env) (w : World) (cfg : Config)
    (hw : w.globalConfig = some cfg)
    (hkfp : cfg.keyFilePath ≠ "")
    (hpaths : cfg.configPath ≠ cfg.keyFilePath)
    (hbp : w.keyFilePassword ≠ "")
    (hkey : fsLookup w.files cfg.keyFilePath
      = some (.blob w.keyFilePassword (.text cfg.decryptPwd)))
    (htrim : trimSpace cfg.decryptPwd = cfg.decryptPwd)
    (hok : (SetConfig env w "PORT" (.goInt 8080)).1 = .ok ()) :
    ((Init okEnv (restartWorld (SetConfig env w "PORT" (.goInt 8080)).2)
        cfg.configPath cfg.keyFilePath).1 = .ok () ∧
      GetInt (Init okEnv (restartWorld (SetConfig env w "PORT" (.goInt 8080)).2)
        cfg.configPath cfg.keyFilePath).2 "PORT" = .ok 8080) ∧
    (∀ files c, hasUnsupObj c.configData = false → jnormObj c.configData = c.configData →
      saveConfig okEnv files c =
        (.ok (), fsInsert (fsInsert files c.configPath .empty) c.configPath
          (vimEncrypt c.decryptPwd (.json (.goObj c.configData)))) ∧
      loadConfig okEnv (fsInsert (fsInsert files c.configPath .empty) c.configPath
        (vimEncrypt c.decryptPwd (.json (.goObj c.configData)))) c = (.ok (), c)) := by
  constructor
  · have hfull : SetConfig env w "PORT" (.goInt 8080)
        = (.ok (), (SetConfig env w "PORT" (.goInt 8080)).2) := Prod.ext hok rfl
    obtain ⟨cfg', f1, hcfg', hsave, hw'⟩ := SetConfig_okE env w _ _ _ hfull
    have hcc : cfg = cfg' := Option.some_injective _ (hw.symm.trans hcfg')
    subst hcc
    obtain ⟨hU, hC, hE, hf1⟩ := saveConfig_okE env w.files _ f1 hsave
    subst hf1
    rw [hw']
    dsimp only
    have hInit := Init_keyfile_exists_eval
      (restartWorld (World.mk w.keyFilePassword
        (fsInsert (fsInsert w.files cfg.configPath .empty) cfg.configPath
          (vimEncrypt cfg.decryptPwd
            (.json (.goObj (mapInsert cfg.configData "PORT" (.goInt 8080))))))
        (some (Config.mk cfg.configPath cfg.decryptPwd
          (mapInsert cfg.configData "PORT" (.goInt 8080)) cfg.keyFilePath))))
      cfg.configPath cfg.keyFilePath cfg.decryptPwd cfg.decryptPwd
      (vimEncrypt cfg.decryptPwd
        (.json (.goObj (mapInsert cfg.configData "PORT" (.goInt 8080)))))
      (.json (.goObj (mapInsert cfg.configData "PORT" (.goInt 8080))))
      (jnormObj (mapInsert cfg.configData "PORT" (.goInt 8080)))
      hbp hkfp
      (by simp [restartWorld, fsInsert, fsLookup, vimEncrypt, hpaths, hkey])
      htrim
      (by simp [restartWorld, fsInsert, fsLookup, vimEncrypt])
      (by simp [vimDecrypt, vimEncrypt])
      rfl
    rw [hInit]
    refine ⟨rfl, ?_⟩
    simp only [GetInt, Get, restartWorld, mapInsert, jnormObj, jnorm, mapLookup, if_pos rfl]
    rfl
  · intro files c hU hN
    constructor
    · simp [saveConfig, jsonMarshalObj, hU, okEnv, vimEncrypt]
    · have hload := loadConfig_eval okEnv
        (fsInsert (fsInsert files c.configPath .empty) c.configPath
          (vimEncrypt c.decryptPwd (.json (.goObj c.configData)))) c
        (vimEncrypt c.decryptPwd (.json (.goObj c.configData)))
        (.json (.goObj c.configData)) (jnormObj c.configData) rfl
        (by simp [fsInsert, fsLookup]) (by simp [vimDecrypt, vimEncrypt]) rfl
      rw [hload, hN]

theorem C5_witness :
    ((Init okEnv (restartWorld (SetConfig okEnv wW5 "PORT" (.goInt 8080)).2)
        cfgW5.configPath cfgW5.keyFilePath).1 = .ok () ∧
      GetInt (Init okEnv (restartWorld (SetConfig okEnv wW5 "PORT" (.goInt 8080)).2)
        cfgW5.configPath cfgW5.keyFilePath).2 "PORT" = .ok 8080) ∧
    (saveConfig okEnv [] cfgW5 =
        (.ok (), fsInsert (fsInsert [] cfgW5.configPath .empty) cfgW5.configPath
          (vimEncrypt cfgW5.decryptPwd (.json (.goObj cfgW5.configData)))) ∧
      loadConfig okEnv (fsInsert (fsInsert [] cfgW5.configPath .empty) cfgW5.configPath
        (vimEncrypt cfgW5.decryptPwd (.json (.goObj cfgW5.configData)))) cfgW5
        = (.ok (), cfgW5)) := by
  have h := C5_persistence_roundtrip okEnv wW5 cfgW5 rfl (by decide) (by decide) (by decide)
    rfl rfl rfl
  exact ⟨h.1, h.2 [] cfgW5 rfl rfl⟩

end Myconfig
